import Mathlib

/-
  Shallow embedding of src/heat.cu: a 2D heat-diffusion simulation with a
  4-neighbor explicit stencil (blend_kernel), a constant-source clamp
  (copy_const_kernel), and a driver (anim_gpu) running 90 clamp/diffuse/swap
  substeps per displayed frame.  Scalars are modelled as exact rationals;
  grids are flat row-major lists; the C int index arithmetic is modelled
  over ℤ.
-/

namespace Heat

/-- Grid dimension: #define DIM 1024. -/
def DIM : ℕ := 1024

/-- Maximum seed temperature: #define MAX_TEMP 1.0f. -/
def MAX_TEMP : ℚ := 1

/-- Minimum seed temperature: #define MIN_TEMP 0.0001f. -/
def MIN_TEMP : ℚ := 1/10000

/-- Diffusion coefficient: #define SPEED 0.25f. -/
def SPEED : ℚ := 1/4

/-- Read a flat grid buffer at a (possibly int-typed) index; out-of-range
reads return a junk value 0 (they are proved never to occur in the kernels). -/
def readG (g : List ℚ) (i : ℤ) : ℚ :=
  if 0 ≤ i then g.getD i.toNat 0 else 0

/-- offset = x + y * blockDim.x * gridDim.x, with blockDim.x * gridDim.x = dim. -/
def offsetOf (dim x y : ℕ) : ℤ := (x : ℤ) + (y : ℤ) * (dim : ℤ)

/-- int left = offset - 1; if (x == 0) left++; -/
def leftOf (dim x y : ℕ) : ℤ :=
  let offset := offsetOf dim x y
  let left := offset - 1
  if x = 0 then left + 1 else left

/-- int right = offset + 1; if (x == DIM-1) right--; -/
def rightOf (dim x y : ℕ) : ℤ :=
  let offset := offsetOf dim x y
  let right := offset + 1
  if x = dim - 1 then right - 1 else right

/-- int top = offset - DIM; if (y == 0) top += DIM; -/
def topOf (dim x y : ℕ) : ℤ :=
  let offset := offsetOf dim x y
  let top := offset - (dim : ℤ)
  if y = 0 then top + dim else top

/-- int bottom = offset + DIM; if (y == DIM-1) bottom -= DIM; -/
def bottomOf (dim x y : ℕ) : ℤ :=
  let offset := offsetOf dim x y
  let bottom := offset + (dim : ℤ)
  if y = dim - 1 then bottom - dim else bottom

/-- The per-cell body of blend_kernel:
outSrc[offset] = inSrc[offset] + SPEED * (inSrc[top] + inSrc[bottom] +
inSrc[left] + inSrc[right] - inSrc[offset]*4). -/
def blendCell (dim : ℕ) (inSrc : List ℚ) (x y : ℕ) : ℚ :=
  readG inSrc (offsetOf dim x y) + SPEED *
    (readG inSrc (topOf dim x y) + readG inSrc (bottomOf dim x y) +
     readG inSrc (leftOf dim x y) + readG inSrc (rightOf dim x y) -
     readG inSrc (offsetOf dim x y) * 4)

/-- blend_kernel launched over the full dim range of cells: the diffusion
step mapping the input grid to the output grid. -/
def blend_kernel (dim : ℕ) (inSrc : List ℚ) : List ℚ :=
  (List.range (dim * dim)).map (fun i => blendCell dim inSrc (i % dim) (i / dim))

/-- The per-cell body of copy_const_kernel:
if (cptr[offset] != 0) iptr[offset] = cptr[offset]. -/
def copyConstCell (iptr cptr : List ℚ) (i : ℕ) : ℚ :=
  if readG cptr i ≠ 0 then readG cptr i else readG iptr i

/-- copy_const_kernel launched over the full dim range of cells: the
source-clamp step, overwriting pinned cells of the working grid from the
constant-source mask. -/
def copy_const_kernel (dim : ℕ) (iptr cptr : List ℚ) : List ℚ :=
  (List.range (dim * dim)).map (fun i => copyConstCell iptr cptr i)

/-- The device buffers of struct DataBlock relevant to the simulation state. -/
structure DataBlock where
  dev_inSrc : List ℚ
  dev_outSrc : List ℚ
  dev_constSrc : List ℚ

/-- One iteration of the for-loop of anim_gpu: clamp the current buffer in
place from the mask, diffuse current into next, then swap the two buffer
identities (a pointer exchange, no copy). -/
def substep (dim : ℕ) (d : DataBlock) : DataBlock :=
  let clamped := copy_const_kernel dim d.dev_inSrc d.dev_constSrc
  let blended := blend_kernel dim clamped
  { dev_inSrc := blended, dev_outSrc := clamped, dev_constSrc := d.dev_constSrc }

/-- The for (int i=0; i<90; i++) loop of anim_gpu, as literal recursion on
the remaining iteration count. -/
def animLoop (dim : ℕ) : ℕ → DataBlock → DataBlock
  | 0, d => d
  | n + 1, d => animLoop dim n (substep dim d)

/-- The simulation content of anim_gpu: run the 90-iteration substep loop.
(The subsequent float_to_color / memcpy / timing calls read dev_inSrc but do
not change simulation state.) -/
def anim_gpu (dim : ℕ) (d : DataBlock) : DataBlock :=
  animLoop dim 90 d

/-- The grid handed to float_to_color (the render bridge) after the loop:
dev_inSrc of the post-loop state. -/
def displayed (dim : ℕ) (d : DataBlock) : List ℚ :=
  (anim_gpu dim d).dev_inSrc

/-- Read the grid at pixel position (x, y): flat index x + y*dim. -/
def atCell (dim : ℕ) (g : List ℚ) (x y : ℕ) : ℚ :=
  g.getD (x + y * dim) 0

/-- The first seeding loop of main: temp[i] = 0, then MAX_TEMP on the
rectangle 300<x<600, 310<y<601. -/
def seedConstLoop (i : ℕ) : ℚ :=
  if 300 < i % DIM ∧ i % DIM < 600 ∧ 310 < i / DIM ∧ i / DIM < 601
  then MAX_TEMP else 0

/-- Contents of temp when it is copied to dev_constSrc: the seeding loop
followed by the four point writes and the cold-block loop, later writes
winning. -/
def constSrcInit (i : ℕ) : ℚ :=
  if 400 ≤ i % DIM ∧ i % DIM < 500 ∧ 800 ≤ i / DIM ∧ i / DIM < 900 then MIN_TEMP
  else if i = DIM * 200 + 700 then MIN_TEMP
  else if i = DIM * 300 + 300 then MIN_TEMP
  else if i = DIM * 700 + 100 then MIN_TEMP
  else if i = DIM * 100 + 100 then (MAX_TEMP + MIN_TEMP) / 2
  else seedConstLoop i

/-- Contents of temp when it is copied to dev_inSrc: the same buffer
(NOT re-zeroed) further overwritten with MAX_TEMP on x<200, 800<=y<DIM. -/
def inSrcInit (i : ℕ) : ℚ :=
  if i % DIM < 200 ∧ 800 ≤ i / DIM ∧ i / DIM < DIM then MAX_TEMP
  else constSrcInit i

/- Helper lemmas about the embedding. -/

lemma readG_natCast (g : List ℚ) (n : ℕ) : readG g (n : ℤ) = g.getD n 0 := by
  simp [readG]

lemma getD_map_range (f : ℕ → ℚ) (n i : ℕ) (h : i < n) :
    ((List.range n).map f).getD i 0 = f i := by
  rw [List.getD_eq_getElem?_getD]
  rw [List.getElem?_map, List.getElem?_range h]
  rfl

lemma getD_map_range_ge (f : ℕ → ℚ) (n i : ℕ) (h : n ≤ i) :
    ((List.range n).map f).getD i 0 = 0 := by
  rw [List.getD_eq_getElem?_getD]
  rw [List.getElem?_map]
  rw [List.getElem?_eq_none (by simpa using h)]
  rfl

lemma blend_getD (dim : ℕ) (g : List ℚ) (i : ℕ) (h : i < dim * dim) :
    (blend_kernel dim g).getD i 0 = blendCell dim g (i % dim) (i / dim) :=
  getD_map_range _ _ _ h

lemma copy_getD (dim : ℕ) (iptr cptr : List ℚ) (i : ℕ) (h : i < dim * dim) :
    (copy_const_kernel dim iptr cptr).getD i 0 = copyConstCell iptr cptr i :=
  getD_map_range _ _ _ h

lemma offset_lt {dim x y : ℕ} (hx : x < dim) (hy : y < dim) :
    x + y * dim < dim * dim := by
  calc x + y * dim < dim + y * dim := by omega
    _ = (1 + y) * dim := by ring
    _ ≤ dim * dim := Nat.mul_le_mul_right dim (by omega)

lemma offsetOf_natCast (dim x y : ℕ) : offsetOf dim x y = ((x + y * dim : ℕ) : ℤ) := by
  simp [offsetOf]

lemma leftOf_of_ne (dim x y : ℕ) (hx : x ≠ 0) :
    leftOf dim x y = ((x - 1 + y * dim : ℕ) : ℤ) := by
  simp only [leftOf, offsetOf, if_neg hx]
  rw [Nat.cast_add, Nat.cast_sub (by omega : 1 ≤ x), Nat.cast_mul]
  push_cast
  ring

lemma rightOf_of_ne (dim x y : ℕ) (hx : x ≠ dim - 1) :
    rightOf dim x y = ((x + 1 + y * dim : ℕ) : ℤ) := by
  simp only [rightOf, offsetOf, if_neg hx]
  push_cast
  ring

lemma topOf_of_ne (dim x y : ℕ) (hy : y ≠ 0) :
    topOf dim x y = ((x + (y - 1) * dim : ℕ) : ℤ) := by
  simp only [topOf, offsetOf, if_neg hy]
  rw [Nat.cast_add, Nat.cast_mul, Nat.cast_sub (by omega : 1 ≤ y)]
  push_cast
  ring

lemma bottomOf_of_ne (dim x y : ℕ) (hy : y ≠ dim - 1) :
    bottomOf dim x y = ((x + (y + 1) * dim : ℕ) : ℤ) := by
  simp only [bottomOf, offsetOf, if_neg hy]
  push_cast
  ring

lemma leftOf_zero (dim y : ℕ) : leftOf dim 0 y = offsetOf dim 0 y := by
  simp [leftOf]

lemma rightOf_last (dim y : ℕ) : rightOf dim (dim - 1) y = offsetOf dim (dim - 1) y := by
  simp [rightOf]

lemma topOf_zero (dim x : ℕ) : topOf dim x 0 = offsetOf dim x 0 := by
  simp [topOf]

lemma bottomOf_last (dim x : ℕ) : bottomOf dim x (dim - 1) = offsetOf dim x (dim - 1) := by
  simp [bottomOf]

/- Claim theorems. -/

/-- C1: for every input grid and every interior cell (0 < x < dim-1,
0 < y < dim-1, dim = 1024 in the reference configuration), the grid produced
by the diffusion step blend_kernel satisfies
output[x,y] = input[x,y] + SPEED * (input[x,y-1] + input[x,y+1] +
input[x-1,y] + input[x+1,y] - 4*input[x,y]), with SPEED = 1/4. -/
theorem C1_interior_stencil (dim : ℕ) (inSrc : List ℚ) (x y : ℕ)
    (hx0 : 0 < x) (hx1 : x < dim - 1) (hy0 : 0 < y) (hy1 : y < dim - 1) :
    atCell dim (blend_kernel dim inSrc) x y =
      atCell dim inSrc x y + SPEED *
        (atCell dim inSrc x (y - 1) + atCell dim inSrc x (y + 1) +
         atCell dim inSrc (x - 1) y + atCell dim inSrc (x + 1) y -
         4 * atCell dim inSrc x y) := by
  have hx : x < dim := by omega
  have hy : y < dim := by omega
  have hoff : x + y * dim < dim * dim := offset_lt hx hy
  have hdim : 0 < dim := by omega
  unfold atCell
  rw [blend_getD dim inSrc (x + y * dim) hoff]
  rw [Nat.add_mul_mod_self_right, Nat.mod_eq_of_lt hx]
  rw [Nat.add_mul_div_right x y hdim, Nat.div_eq_of_lt hx, Nat.zero_add]
  unfold blendCell
  rw [offsetOf_natCast, leftOf_of_ne dim x y (by omega), rightOf_of_ne dim x y (by omega),
    topOf_of_ne dim x y (by omega), bottomOf_of_ne dim x y (by omega)]
  rw [readG_natCast, readG_natCast, readG_natCast, readG_natCast, readG_natCast]
  unfold SPEED
  ring

/-- C1 witness: the interior stencil formula evaluated at cell (1,1) of a
concrete 4 by 4 grid. -/
theorem C1_interior_stencil_witness :
    atCell 4 (blend_kernel 4 [0,1,2,3, 4,5,6,7, 8,9,10,11, 12,13,14,15]) 1 1 =
      atCell 4 [0,1,2,3, 4,5,6,7, 8,9,10,11, 12,13,14,15] 1 1 + SPEED *
        (atCell 4 [0,1,2,3, 4,5,6,7, 8,9,10,11, 12,13,14,15] 1 (1 - 1) +
         atCell 4 [0,1,2,3, 4,5,6,7, 8,9,10,11, 12,13,14,15] 1 (1 + 1) +
         atCell 4 [0,1,2,3, 4,5,6,7, 8,9,10,11, 12,13,14,15] (1 - 1) 1 +
         atCell 4 [0,1,2,3, 4,5,6,7, 8,9,10,11, 12,13,14,15] (1 + 1) 1 -
         4 * atCell 4 [0,1,2,3, 4,5,6,7, 8,9,10,11, 12,13,14,15] 1 1) :=
  C1_interior_stencil 4 [0,1,2,3, 4,5,6,7, 8,9,10,11, 12,13,14,15] 1 1
    (by norm_num) (by norm_num) (by norm_num) (by norm_num)

/-- C2: the boundary rule of blend_kernel is self-substitution: at x = 0 the
west stencil index (and hence the west term) is the cell itself, at
x = dim-1 the east one, at y = 0 the north one, at y = dim-1 the south one;
never a wrapped or out-of-range index. -/
theorem C2_boundary_self_substitution (dim x y : ℕ) (inSrc : List ℚ) :
    (leftOf dim 0 y = offsetOf dim 0 y ∧
       readG inSrc (leftOf dim 0 y) = atCell dim inSrc 0 y) ∧
    (rightOf dim (dim - 1) y = offsetOf dim (dim - 1) y ∧
       readG inSrc (rightOf dim (dim - 1) y) = atCell dim inSrc (dim - 1) y) ∧
    (topOf dim x 0 = offsetOf dim x 0 ∧
       readG inSrc (topOf dim x 0) = atCell dim inSrc x 0) ∧
    (bottomOf dim x (dim - 1) = offsetOf dim x (dim - 1) ∧
       readG inSrc (bottomOf dim x (dim - 1)) = atCell dim inSrc x (dim - 1)) := by
  refine ⟨⟨leftOf_zero dim y, ?_⟩, ⟨rightOf_last dim y, ?_⟩,
    ⟨topOf_zero dim x, ?_⟩, ⟨bottomOf_last dim x, ?_⟩⟩
  · rw [leftOf_zero, offsetOf_natCast, readG_natCast]; rfl
  · rw [rightOf_last, offsetOf_natCast, readG_natCast]; rfl
  · rw [topOf_zero, offsetOf_natCast, readG_natCast]; rfl
  · rw [bottomOf_last, offsetOf_natCast, readG_natCast]; rfl

lemma animLoop_eq_iterate (dim n : ℕ) (d : DataBlock) :
    animLoop dim n d = (substep dim)^[n] d := by
  induction n generalizing d with
  | zero => rfl
  | succ k ih =>
      rw [Function.iterate_succ_apply]
      exact ih (substep dim d)

lemma iterate_constSrc (dim n : ℕ) (d : DataBlock) :
    ((substep dim)^[n] d).dev_constSrc = d.dev_constSrc := by
  induction n generalizing d with
  | zero => rfl
  | succ k ih =>
      rw [Function.iterate_succ_apply]
      exact ih (substep dim d)

/-- C3: the frame-advance loop of anim_gpu performs exactly 90 substeps,
each substep being, in order, the source clamp applied to the current
buffer, the diffusion step reading current and writing next, and a swap of
the two buffer identities; the current grid after the 90th substep is the
one handed to the render bridge. -/
theorem C3_frame_is_90_substeps (dim : ℕ) (d : DataBlock) :
    anim_gpu dim d = (substep dim)^[90] d ∧
    substep dim d =
      { dev_inSrc := blend_kernel dim (copy_const_kernel dim d.dev_inSrc d.dev_constSrc),
        dev_outSrc := copy_const_kernel dim d.dev_inSrc d.dev_constSrc,
        dev_constSrc := d.dev_constSrc } ∧
    displayed dim d = ((substep dim)^[90] d).dev_inSrc := by
  refine ⟨animLoop_eq_iterate dim 90 d, rfl, ?_⟩
  unfold displayed anim_gpu
  rw [animLoop_eq_iterate dim 90 d]

/-- C4: after the source clamp copy_const_kernel, every cell whose mask
value is nonzero holds exactly the mask value regardless of its prior
value, and every cell whose mask value is exactly 0 keeps its prior value. -/
theorem C4_clamp_semantics (dim : ℕ) (iptr cptr : List ℚ) (i : ℕ)
    (hi : i < dim * dim) :
    (cptr.getD i 0 ≠ 0 →
       (copy_const_kernel dim iptr cptr).getD i 0 = cptr.getD i 0) ∧
    (cptr.getD i 0 = 0 →
       (copy_const_kernel dim iptr cptr).getD i 0 = iptr.getD i 0) := by
  rw [copy_getD dim iptr cptr i hi]
  unfold copyConstCell
  rw [readG_natCast, readG_natCast]
  constructor
  · intro h
    rw [if_pos h]
  · intro h
    rw [if_neg (fun hc => hc h)]

/-- C4 witness: the clamp evaluated on a concrete 2 by 2 grid and mask, at a
pinned cell and at an inert cell. -/
theorem C4_clamp_semantics_witness :
    ((([1,0,0,0] : List ℚ).getD 0 0 ≠ 0 →
        (copy_const_kernel 2 [5,6,7,8] [1,0,0,0]).getD 0 0 =
          ([1,0,0,0] : List ℚ).getD 0 0) ∧
     (([1,0,0,0] : List ℚ).getD 0 0 = 0 →
        (copy_const_kernel 2 [5,6,7,8] [1,0,0,0]).getD 0 0 =
          ([5,6,7,8] : List ℚ).getD 0 0)) ∧
    ((([1,0,0,0] : List ℚ).getD 1 0 ≠ 0 →
        (copy_const_kernel 2 [5,6,7,8] [1,0,0,0]).getD 1 0 =
          ([1,0,0,0] : List ℚ).getD 1 0) ∧
     (([1,0,0,0] : List ℚ).getD 1 0 = 0 →
        (copy_const_kernel 2 [5,6,7,8] [1,0,0,0]).getD 1 0 =
          ([5,6,7,8] : List ℚ).getD 1 0)) :=
  ⟨C4_clamp_semantics 2 [5,6,7,8] [1,0,0,0] 0 (by norm_num),
   C4_clamp_semantics 2 [5,6,7,8] [1,0,0,0] 1 (by norm_num)⟩

/-- C7: applying the source clamp twice in succession yields exactly the
same grid as applying it once. -/
theorem C7_clamp_idempotent (dim : ℕ) (iptr cptr : List ℚ) :
    copy_const_kernel dim (copy_const_kernel dim iptr cptr) cptr =
      copy_const_kernel dim iptr cptr := by
  unfold copy_const_kernel copyConstCell
  apply List.map_congr_left
  intro i hi
  have hlt : i < dim * dim := List.mem_range.mp hi
  by_cases h : readG cptr (i : ℤ) ≠ 0
  · rw [if_pos h, if_pos h]
  · rw [if_neg h, if_neg h]
    rw [readG_natCast]
    rw [getD_map_range _ _ _ hlt]
    rw [if_neg h]

/-- A grid whose every read yields 0 (all cells zero). -/
def allZeroG (g : List ℚ) : Prop := ∀ i : ℤ, readG g i = 0

lemma allZeroG_of_forall {g : List ℚ} (h : ∀ a ∈ g, a = 0) : allZeroG g := by
  intro i
  unfold readG
  split
  · rw [List.getD_eq_getElem?_getD]
    cases hg : g[i.toNat]? with
    | none => rfl
    | some a =>
        have ha : a ∈ g := by
          rw [List.mem_iff_getElem?]
          exact ⟨i.toNat, hg⟩
        simpa using h a ha
  · rfl

lemma readG_map_range (f : ℕ → ℚ) (n : ℕ) (i : ℤ) :
    readG ((List.range n).map f) i =
      if 0 ≤ i ∧ i.toNat < n then f i.toNat else 0 := by
  unfold readG
  by_cases h0 : 0 ≤ i
  · rw [if_pos h0]
    by_cases hn : i.toNat < n
    · rw [if_pos ⟨h0, hn⟩, getD_map_range _ _ _ hn]
    · rw [if_neg (fun hc => hn hc.2), getD_map_range_ge _ _ _ (by omega)]
  · rw [if_neg h0, if_neg (fun hc => h0 hc.1)]

lemma allZeroG_copy (dim : ℕ) (iptr cptr : List ℚ)
    (hi : allZeroG iptr) (hc : allZeroG cptr) :
    allZeroG (copy_const_kernel dim iptr cptr) := by
  intro i
  unfold copy_const_kernel
  rw [readG_map_range]
  split
  · unfold copyConstCell
    rw [hc, hi]
    simp
  · rfl

lemma allZeroG_blend (dim : ℕ) (g : List ℚ) (hg : allZeroG g) :
    allZeroG (blend_kernel dim g) := by
  intro i
  unfold blend_kernel
  rw [readG_map_range]
  split
  · unfold blendCell
    rw [hg, hg, hg, hg, hg]
    norm_num
  · rfl

/-- C8: if the current grid is all-zero and the mask is all-zero, then the
current grid is still all-zero after any number of clamp/diffuse/swap
substeps; no spurious source values appear. -/
theorem C8_zero_state_preserved (dim : ℕ) (d : DataBlock) (n : ℕ)
    (hmask : allZeroG d.dev_constSrc) (hcur : allZeroG d.dev_inSrc) :
    allZeroG (((substep dim)^[n]) d).dev_inSrc := by
  induction n generalizing d with
  | zero => exact hcur
  | succ k ih =>
      rw [Function.iterate_succ_apply]
      exact ih (substep dim d) hmask
        (allZeroG_blend dim _ (allZeroG_copy dim _ _ hcur hmask))

/-- C8 witness: five substeps on concrete all-zero buffers and mask keep the
current grid all-zero. -/
theorem C8_zero_state_preserved_witness :
    allZeroG (((substep 2)^[5])
      ⟨List.replicate 4 0, List.replicate 4 0, List.replicate 4 0⟩).dev_inSrc :=
  C8_zero_state_preserved 2
    ⟨List.replicate 4 0, List.replicate 4 0, List.replicate 4 0⟩ 5
    (allZeroG_of_forall (fun _ ha => List.eq_of_mem_replicate ha))
    (allZeroG_of_forall (fun _ ha => List.eq_of_mem_replicate ha))

/-- C9: the kernels are total, with no out-of-range access: for every cell
(x, y) with x < dim and y < dim, each index the kernels read or write
(offset and the boundary-adjusted left, right, top, bottom) lies within
[0, dim*dim). -/
theorem C9_indices_in_bounds (dim x y : ℕ) (hx : x < dim) (hy : y < dim) :
    (0 ≤ offsetOf dim x y ∧ offsetOf dim x y < ((dim * dim : ℕ) : ℤ)) ∧
    (0 ≤ leftOf dim x y ∧ leftOf dim x y < ((dim * dim : ℕ) : ℤ)) ∧
    (0 ≤ rightOf dim x y ∧ rightOf dim x y < ((dim * dim : ℕ) : ℤ)) ∧
    (0 ≤ topOf dim x y ∧ topOf dim x y < ((dim * dim : ℕ) : ℤ)) ∧
    (0 ≤ bottomOf dim x y ∧ bottomOf dim x y < ((dim * dim : ℕ) : ℤ)) := by
  have hoff : x + y * dim < dim * dim := offset_lt hx hy
  refine ⟨?_, ?_, ?_, ?_, ?_⟩
  · rw [offsetOf_natCast]
    exact ⟨Int.natCast_nonneg _, by exact_mod_cast hoff⟩
  · by_cases h : x = 0
    · subst h
      rw [leftOf_zero, offsetOf_natCast]
      exact ⟨Int.natCast_nonneg _, by exact_mod_cast hoff⟩
    · rw [leftOf_of_ne dim x y h]
      have : x - 1 + y * dim < dim * dim := offset_lt (by omega) hy
      exact ⟨Int.natCast_nonneg _, by exact_mod_cast this⟩
  · by_cases h : x = dim - 1
    · rw [h, rightOf_last, offsetOf_natCast]
      have : dim - 1 + y * dim < dim * dim := offset_lt (by omega) hy
      exact ⟨Int.natCast_nonneg _, by exact_mod_cast this⟩
    · rw [rightOf_of_ne dim x y h]
      have : x + 1 + y * dim < dim * dim := offset_lt (by omega) hy
      exact ⟨Int.natCast_nonneg _, by exact_mod_cast this⟩
  · by_cases h : y = 0
    · subst h
      rw [topOf_zero, offsetOf_natCast]
      exact ⟨Int.natCast_nonneg _, by exact_mod_cast hoff⟩
    · rw [topOf_of_ne dim x y h]
      have : x + (y - 1) * dim < dim * dim := offset_lt hx (by omega)
      exact ⟨Int.natCast_nonneg _, by exact_mod_cast this⟩
  · by_cases h : y = dim - 1
    · rw [h, bottomOf_last, offsetOf_natCast]
      have : x + (dim - 1) * dim < dim * dim := offset_lt hx (by omega)
      exact ⟨Int.natCast_nonneg _, by exact_mod_cast this⟩
    · rw [bottomOf_of_ne dim x y h]
      have : x + (y + 1) * dim < dim * dim := offset_lt hx (by omega)
      exact ⟨Int.natCast_nonneg _, by exact_mod_cast this⟩

/-- The seeding shape asserted by the spec for the initial current grid:
zero at every cell except the cells of one rectangle, which hold MAX_TEMP. -/
def hotRegionOnlySeed : Prop :=
  ∃ x0 x1 y0 y1 : ℕ, ∀ i, i < DIM * DIM →
    inSrcInit i =
      if x0 ≤ i % DIM ∧ i % DIM < x1 ∧ y0 ≤ i / DIM ∧ i / DIM < y1
      then MAX_TEMP else 0

/-- C5 counterexample: the initial current grid is NOT zero outside one
MAX_TEMP rectangle, because the seeding buffer is reused from the mask
without being cleared: cell (100, 100) holds (MAX_TEMP + MIN_TEMP)/2, which
is neither 0 nor MAX_TEMP. -/
theorem C5_counterexample_not_hot_region_only : ¬ hotRegionOnlySeed := by
  rintro ⟨x0, x1, y0, y1, h⟩
  have h1 := h (DIM * 100 + 100) (by decide)
  have h2 : inSrcInit (DIM * 100 + 100) = (MAX_TEMP + MIN_TEMP) / 2 := by
    norm_num [inSrcInit, constSrcInit, DIM]
  rw [h2] at h1
  split_ifs at h1 <;> norm_num [MAX_TEMP, MIN_TEMP] at h1

/-- The closed-form description of the initial current grid actually
produced by main: the mask data (big hot rectangle, four point sources, one
cold block) overlaid with one extra MAX_TEMP rectangle x < 200,
800 <= y < DIM; zero everywhere else. -/
def actualSeedDescription (i : ℕ) : ℚ :=
  if i % DIM < 200 ∧ 800 ≤ i / DIM ∧ i / DIM < DIM then MAX_TEMP
  else if 400 ≤ i % DIM ∧ i % DIM < 500 ∧ 800 ≤ i / DIM ∧ i / DIM < 900 then MIN_TEMP
  else if i = DIM * 200 + 700 ∨ i = DIM * 300 + 300 ∨ i = DIM * 700 + 100 then MIN_TEMP
  else if i = DIM * 100 + 100 then (MAX_TEMP + MIN_TEMP) / 2
  else if 300 < i % DIM ∧ i % DIM < 600 ∧ 310 < i / DIM ∧ i / DIM < 601 then MAX_TEMP
  else 0

/-- C5 amended: at startup the initial current grid is seeded with the mask
data (because the host staging buffer is reused without clearing) plus one
rectangular MAX_TEMP region x < 200, 800 <= y < DIM located apart from the
mask regions; it is zero only outside all of those regions. -/
theorem C5_amended_seed_layout (i : ℕ) (_hi : i < DIM * DIM) :
    inSrcInit i = actualSeedDescription i := by
  unfold inSrcInit constSrcInit seedConstLoop actualSeedDescription DIM
  split_ifs <;> first | rfl | omega

/-- C5 amended witness: the seeding description evaluated at the flat index
of cell (100, 100). -/
theorem C5_amended_seed_layout_witness :
    DIM * 100 + 100 < DIM * DIM ∧
      inSrcInit (DIM * 100 + 100) = actualSeedDescription (DIM * 100 + 100) :=
  ⟨by decide, C5_amended_seed_layout (DIM * 100 + 100) (by decide)⟩

/-- C9 witness: the index bounds at the concrete cell (2, 3) of a 4 by 4
grid. -/
theorem C9_indices_in_bounds_witness :
    (0 ≤ offsetOf 4 2 3 ∧ offsetOf 4 2 3 < ((4 * 4 : ℕ) : ℤ)) ∧
    (0 ≤ leftOf 4 2 3 ∧ leftOf 4 2 3 < ((4 * 4 : ℕ) : ℤ)) ∧
    (0 ≤ rightOf 4 2 3 ∧ rightOf 4 2 3 < ((4 * 4 : ℕ) : ℤ)) ∧
    (0 ≤ topOf 4 2 3 ∧ topOf 4 2 3 < ((4 * 4 : ℕ) : ℤ)) ∧
    (0 ≤ bottomOf 4 2 3 ∧ bottomOf 4 2 3 < ((4 * 4 : ℕ) : ℤ)) :=
  C9_indices_in_bounds 4 2 3 (by norm_num) (by norm_num)

/-- The 4 by 4 example mask: all zero except cell (0,0) = 1. -/
def mask4 : List ℚ := [1,0,0,0, 0,0,0,0, 0,0,0,0, 0,0,0,0]

/-- The 4 by 4 example state: all-zero current grid, all-zero next buffer,
mask4 as the constant source. -/
def ex4 : DataBlock := ⟨List.replicate 16 0, List.replicate 16 0, mask4⟩

/-- C6 counterexample: on the 4 by 4 example (mask zero except (0,0) = 1,
grid all zero), after exactly one substep the current grid holds 1/2 at
cell (0,0), not 1.0: the clamp precedes the diffusion inside the substep,
so the displayed value at the pinned cell is its diffusion output. -/
theorem C6_counterexample_pinned_cell_not_one :
    ¬ atCell 4 (substep 4 ex4).dev_inSrc 0 0 = 1 := by
  have h : atCell 4 (substep 4 ex4).dev_inSrc 0 0 = 1/2 := by
    simp [atCell, substep, ex4, mask4, blend_kernel, copy_const_kernel, blendCell,
      copyConstCell, readG, offsetOf, leftOf, rightOf, topOf, bottomOf, SPEED,
      List.range_succ, List.getD]
    norm_num
  rw [h]
  norm_num

/-- C6 amended: on the 4 by 4 example, after exactly one substep the current
grid is exactly [1/2, 1/4, 0, 0, 1/4, 0, ..., 0]: cell (0,0) holds 1/2 (the
diffusion output of the clamped cell, since no clamp follows the diffusion
within a substep), cells (1,0) and (0,1) each hold 0.25 = SPEED * (1 - 0),
and all other cells hold 0. -/
theorem C6_amended_one_substep_grid :
    (substep 4 ex4).dev_inSrc =
      [1/2, 1/4, 0, 0, 1/4, 0, 0, 0, 0, 0, 0, 0, 0, 0, 0, 0] := by
  simp [substep, ex4, mask4, blend_kernel, copy_const_kernel, blendCell, copyConstCell,
    readG, offsetOf, leftOf, rightOf, topOf, bottomOf, SPEED, List.range_succ, List.getD]
  norm_num

/-- The 2 by 2 example mask for C10: cell (0,0) pinned to 1, cell (1,0)
pinned to 2. -/
def mask2 : List ℚ := [1, 2, 0, 0]

/-- A current grid that substep maps to itself under mask2. -/
def fix2 : List ℚ := [4/3, 5/3, 4/3, 5/3]

/-- The clamped form of fix2 under mask2. -/
def clamped2 : List ℚ := [1, 2, 4/3, 5/3]

/-- The DataBlock state that is a fixed point of the 2 by 2 substep. -/
def ex2 : DataBlock := ⟨fix2, clamped2, mask2⟩

lemma substep_ex2_fixed : substep 2 ex2 = ex2 := by
  simp [substep, ex2, blend_kernel, copy_const_kernel, blendCell, copyConstCell, readG,
    mask2, fix2, clamped2, offsetOf, leftOf, rightOf, topOf, bottomOf, SPEED,
    List.range_succ, List.getD]
  norm_num

/-- C10: the grid handed to the render bridge is the raw diffusion output of
the 90th substep, with no trailing clamp after it; consequently there are a
mask and a grid (the 2 by 2 fixed-point example) for which a cell pinned by
a nonzero mask value shows a value different from its mask value in the
displayed grid. -/
theorem C10_displayed_grid_unclamped :
    (∀ (dim : ℕ) (d : DataBlock),
        displayed dim d =
          blend_kernel dim
            (copy_const_kernel dim (((substep dim)^[89]) d).dev_inSrc
              d.dev_constSrc)) ∧
    (readG mask2 0 ≠ 0 ∧
       atCell 2 (displayed 2 ex2) 0 0 ≠ readG mask2 0) := by
  constructor
  · intro dim d
    unfold displayed anim_gpu
    rw [animLoop_eq_iterate dim 90 d]
    rw [show (90 : ℕ) = 89 + 1 from rfl, Function.iterate_succ_apply']
    simp only [substep]
    rw [iterate_constSrc dim 89 d]
  · constructor
    · norm_num [readG, mask2, List.getD]
    · have hfix : displayed 2 ex2 = fix2 := by
        unfold displayed anim_gpu
        rw [animLoop_eq_iterate 2 90 ex2]
        rw [Function.iterate_fixed substep_ex2_fixed 90]
        rfl
      rw [hfix]
      norm_num [atCell, fix2, readG, mask2, List.getD]

end Heat
